import Mathlib

/-!
Verification of the `json_to_xlsx.py` converter: a shallow embedding of the
data model (JSON values, series records), the field-ordering algorithm,
the cell serializer, the worksheet XML assembly, the fixed package parts,
the extraction pipeline and a small file-system model for the archive write.
All definitions are translated from `src/json_to_xlsx.py`; the sole
spec-side definitions (`colVal`, `xmlUnescape`) are decoders used to state
that the column naming and the escaping are faithful, and are marked as such.
-/

/-- JSON values as produced by `json.load` / `json.loads` in the source.
Numbers are modelled as integers (the payloads of interest carry integral
counters); objects keep the key order of the source text, as Python dicts do. -/
inductive Json where
  | str (s : String)
  | num (n : Int)
  | null
  | obj (fields : List (String × Json))
  | arr (elems : List Json)

/-- One series entry, i.e. one parsed JSON object: a key-ordered field list.
Python dicts parsed from JSON never hold a key twice. -/
abbrev Record := List (String × Json)

/-- Keys of a record in their own encounter order (`for key in entry`). -/
def recordKeys (e : Record) : List String := e.map Prod.fst

/-- The static `FIELD_LABELS` table of the source, in source order. -/
def FIELD_LABELS : List (String × String) :=
  [("timeMinute", "时刻"),
   ("commentCnt", "评论数"),
   ("commentCntRank", "互动高峰"),
   ("commentUcnt", "评论人数"),
   ("costDiamonds", "消耗钻石数"),
   ("consumeUcnt", "送礼人数"),
   ("earnScore", "音浪"),
   ("earnScoreRank", "送礼高峰"),
   ("expectMinute", "预计扶持时长"),
   ("expectWatchCnt", "预计进房数量"),
   ("followUcnt", "关注人数"),
   ("likeCnt", "点赞数"),
   ("likeUcnt", "点赞人数"),
   ("lottery", "抽奖"),
   ("luckymoneyCnt", "福袋钻石数"),
   ("operatorID", "操作员ID"),
   ("operatorName", "操作员名字"),
   ("pcuTotal", "在线人数"),
   ("realMinute", "实际扶持时长"),
   ("realWatchCnt", "实际进房数量"),
   ("watchUcnt", "进入直播间人数"),
   ("watchUcntRank", "在线观众高峰"),
   ("keyEvent", "关键事件")]

/-- `FIELD_LABELS.get(field, field)` of the source. -/
def labelOf (f : String) : String :=
  match FIELD_LABELS.find? (fun kv => kv.1 == f) with
  | some kv => kv.2
  | none => f

/-- Inner loop of `_ordered_fields`: append each not-yet-seen key to the
running discovered list.  The source keeps a separate `seen` set whose
membership always coincides with membership in the `ordered` list, so a
single list carries the same state. -/
def discover (acc : List String) (ks : List String) : List String :=
  ks.foldl (fun a k => if k ∈ a then a else a ++ [k]) acc

/-- Keys of all records in first-seen order (the double loop of
`_ordered_fields` before the positional rules). -/
def discoveredFields (series : List Record) : List String :=
  series.foldl (fun a e => discover a (recordKeys e)) []

/-- The inner `_pop` helper of `_ordered_fields`: remove the field from the
list when present and report whether it was there.  `list.remove` removes
the first occurrence, which `List.erase` mirrors. -/
def popField (l : List String) (f : String) : List String × Option String :=
  if f ∈ l then (l.erase f, some f) else (l, none)

/-- `_ordered_fields` of the source.  The Python truthiness tests
(`if time_minute:` etc.) coincide with `isSome` because the popped names are
non-empty literals. -/
def orderedFields (series : List Record) : List String :=
  let ordered0 := discoveredFields series
  let p1 := popField ordered0 "timeMinute"
  let result0 := match p1.2 with | some f => [f] | none => []
  let p2 := popField p1.1 "groupPlay"
  let p3 := popField p2.1 "watchUcnt"
  let p4 := popField p3.1 "pcuTotal"
  let result1 := result0 ++ p4.1
  let result2 := result1 ++ (match p3.2 with | some f => [f] | none => [])
  result2 ++ (match p4.2 with | some f => [f] | none => [])

/-- The field list as `main` post-processes it: remove `keyEvent` when
present and append it as the unconditional last column. -/
def mainFields (series : List Record) : List String :=
  let fields0 := orderedFields series
  let fields1 := if "keyEvent" ∈ fields0 then fields0.erase "keyEvent" else fields0
  fields1 ++ ["keyEvent"]

/-- Fuel-indexed body of `_column_name`; the fuel bounds the number of
iterations of the source's `while index:` loop, which is at most the index
itself, so `columnName` below calls it with fuel equal to the index. -/
def columnNameAux : Nat → Nat → String
  | _, 0 => ""
  | 0, _ + 1 => ""
  | fuel + 1, n + 1 => columnNameAux fuel (n / 26) ++ String.mk [Char.ofNat (65 + n % 26)]

/-- `_column_name` of the source: 1-based index to Excel column letters. -/
def columnName (index : Nat) : String := columnNameAux index index

/-- Python `str(value)` for the values a cell can hold.  The payloads of
interest carry strings and integral numbers; the container branches are
never evaluated by the statements below (Python would render its own repr
there). -/
def pyStr : Json → String
  | .str s => s
  | .num n => toString n
  | .null => "None"
  | .obj _ => ""
  | .arr _ => ""

/-- First replace of `_escape_cell_value`: every `\r\n` pair becomes `\n`,
scanning left to right without overlap, as `str.replace` does. -/
def replRN : List Char → List Char
  | [] => []
  | [c] => [c]
  | c1 :: c2 :: rest =>
    if c1 = '\r' ∧ c2 = '\n' then '\n' :: replRN rest
    else c1 :: replRN (c2 :: rest)

/-- Second replace of `_escape_cell_value`: every remaining `\r` becomes `\n`
(a single-character replace acts independently on every position). -/
def replR : List Char → List Char
  | [] => []
  | c :: rest => (if c = '\r' then '\n' else c) :: replR rest

/-- Character-level form of `xml.sax.saxutils.escape`: it rewrites `&` first
and then the angle brackets, which on whole strings equals this per-character
map (the inserted entity text contains no angle bracket, and the bracket
entities introduce their `&` only after the `&` pass is over). -/
def escChar (c : Char) : List Char :=
  if c = '&' then "&amp;".data
  else if c = '<' then "&lt;".data
  else if c = '>' then "&gt;".data
  else [c]

/-- Last replace of `_escape_cell_value`: `\n` becomes `&#10;` (applied after
escaping, so the inserted ampersand is not re-escaped). -/
def nlEsc (c : Char) : List Char :=
  if c = '\n' then "&#10;".data else [c]

/-- `_escape_cell_value` of the source. -/
def escapeCellValue (v : Json) : String :=
  let cs := (pyStr v).data
  let cs := replR (replRN cs)
  let cs := (cs.map escChar).flatten
  let cs := (cs.map nlEsc).flatten
  String.mk cs

/-- The skip test of `_sheet_xml`: Python `value in ("", None)` holds exactly
for the empty string and for `None` (numbers never equal either). -/
def isBlankCell : Json → Bool
  | .str s => s == ""
  | .null => true
  | _ => false

/-- One `<c>` element of `_sheet_xml` for a non-blank value. -/
def cellXml (rowIndex colIndex : Nat) (v : Json) : String :=
  "      <c r=\"" ++ columnName colIndex ++ toString rowIndex ++
    "\" t=\"inlineStr\"><is><t xml:space=\"preserve\">" ++
    escapeCellValue v ++ "</t></is></c>"

/-- The cell lines of one row of `_sheet_xml`, walking the row with 1-based
column indices and skipping blank values without shifting later columns. -/
def rowCellsAux (rowIndex : Nat) : Nat → List Json → List String
  | _, [] => []
  | colIndex, v :: rest =>
    if isBlankCell v then rowCellsAux rowIndex (colIndex + 1) rest
    else cellXml rowIndex colIndex v :: rowCellsAux rowIndex (colIndex + 1) rest

/-- The lines of one `<row>` element of `_sheet_xml`. -/
def rowLines (rowIndex : Nat) (row : List Json) : List String :=
  ("    <row r=\"" ++ toString rowIndex ++ "\">") ::
    (rowCellsAux rowIndex 1 row ++ ["    </row>"])

/-- All row lines of `_sheet_xml`, rows numbered from 1. -/
def sheetRowsAux : Nat → List (List Json) → List String
  | _, [] => []
  | i, row :: rest => rowLines i row ++ sheetRowsAux (i + 1) rest

/-- `_sheet_xml` of the source. -/
def sheetXml (rows : List (List Json)) : String :=
  String.intercalate "\n"
    (["<?xml version=\"1.0\" encoding=\"UTF-8\" standalone=\"yes\"?>",
      "<worksheet xmlns=\"http://schemas.openxmlformats.org/spreadsheetml/2006/main\">",
      "  <sheetData>"]
     ++ sheetRowsAux 1 rows
     ++ ["  </sheetData>", "</worksheet>"])

/-- The fixed `[Content_Types].xml` part (`_content_types_xml`). -/
def contentTypesXml : String :=
  "<?xml version=\"1.0\" encoding=\"UTF-8\"?>\n<Types xmlns=\"http://schemas.openxmlformats.org/package/2006/content-types\">\n  <Default Extension=\"rels\" ContentType=\"application/vnd.openxmlformats-package.relationships+xml\"/>\n  <Default Extension=\"xml\" ContentType=\"application/xml\"/>\n  <Override PartName=\"/xl/workbook.xml\" ContentType=\"application/vnd.openxmlformats-officedocument.spreadsheetml.sheet.main+xml\"/>\n  <Override PartName=\"/xl/worksheets/sheet1.xml\" ContentType=\"application/vnd.openxmlformats-officedocument.spreadsheetml.worksheet+xml\"/>\n  <Override PartName=\"/xl/styles.xml\" ContentType=\"application/vnd.openxmlformats-officedocument.spreadsheetml.styles+xml\"/>\n  <Override PartName=\"/docProps/core.xml\" ContentType=\"application/vnd.openxmlformats-package.core-properties+xml\"/>\n  <Override PartName=\"/docProps/app.xml\" ContentType=\"application/vnd.openxmlformats-officedocument.extended-properties+xml\"/>\n</Types>\n"

/-- The fixed root relationships part (`_root_rels_xml`). -/
def rootRelsXml : String :=
  "<?xml version=\"1.0\" encoding=\"UTF-8\"?>\n<Relationships xmlns=\"http://schemas.openxmlformats.org/package/2006/relationships\">\n  <Relationship Id=\"rId1\" Type=\"http://schemas.openxmlformats.org/officeDocument/2006/relationships/officeDocument\" Target=\"xl/workbook.xml\"/>\n  <Relationship Id=\"rId2\" Type=\"http://schemas.openxmlformats.org/package/2006/relationships/metadata/core-properties\" Target=\"docProps/core.xml\"/>\n  <Relationship Id=\"rId3\" Type=\"http://schemas.openxmlformats.org/officeDocument/2006/relationships/extended-properties\" Target=\"docProps/app.xml\"/>\n</Relationships>\n"

/-- The fixed workbook descriptor part (`_workbook_xml`). -/
def workbookXml : String :=
  "<?xml version=\"1.0\" encoding=\"UTF-8\" standalone=\"yes\"?>\n<workbook xmlns=\"http://schemas.openxmlformats.org/spreadsheetml/2006/main\" xmlns:r=\"http://schemas.openxmlformats.org/officeDocument/2006/relationships\">\n  <sheets>\n    <sheet name=\"data\" sheetId=\"1\" r:id=\"rId1\"/>\n  </sheets>\n</workbook>\n"

/-- The fixed workbook relationships part (`_workbook_rels_xml`). -/
def workbookRelsXml : String :=
  "<?xml version=\"1.0\" encoding=\"UTF-8\"?>\n<Relationships xmlns=\"http://schemas.openxmlformats.org/package/2006/relationships\">\n  <Relationship Id=\"rId1\" Type=\"http://schemas.openxmlformats.org/officeDocument/2006/relationships/worksheet\" Target=\"worksheets/sheet1.xml\"/>\n  <Relationship Id=\"rId2\" Type=\"http://schemas.openxmlformats.org/officeDocument/2006/relationships/styles\" Target=\"styles.xml\"/>\n</Relationships>\n"

/-- The fixed style table part (`_styles_xml`). -/
def stylesXml : String :=
  "<?xml version=\"1.0\" encoding=\"UTF-8\" standalone=\"yes\"?>\n<styleSheet xmlns=\"http://schemas.openxmlformats.org/spreadsheetml/2006/main\">\n  <fonts count=\"1\">\n    <font>\n      <sz val=\"11\"/>\n      <color theme=\"1\"/>\n      <name val=\"Calibri\"/>\n      <family val=\"2\"/>\n    </font>\n  </fonts>\n  <fills count=\"2\">\n    <fill>\n      <patternFill patternType=\"none\"/>\n    </fill>\n    <fill>\n      <patternFill patternType=\"gray125\"/>\n    </fill>\n  </fills>\n  <borders count=\"1\">\n    <border>\n      <left/>\n      <right/>\n      <top/>\n      <bottom/>\n      <diagonal/>\n    </border>\n  </borders>\n  <cellStyleXfs count=\"1\">\n    <xf numFmtId=\"0\" fontId=\"0\" fillId=\"0\" borderId=\"0\"/>\n  </cellStyleXfs>\n  <cellXfs count=\"1\">\n    <xf numFmtId=\"0\" fontId=\"0\" fillId=\"0\" borderId=\"0\" xfId=\"0\"/>\n  </cellXfs>\n  <cellStyles count=\"1\">\n    <cellStyle name=\"Normal\" xfId=\"0\" builtinId=\"0\"/>\n  </cellStyles>\n</styleSheet>\n"

/-- The fixed extended-properties part (`_app_props_xml`). -/
def appPropsXml : String :=
  "<?xml version=\"1.0\" encoding=\"UTF-8\" standalone=\"yes\"?>\n<Properties xmlns=\"http://schemas.openxmlformats.org/officeDocument/2006/extended-properties\" xmlns:vt=\"http://schemas.openxmlformats.org/officeDocument/2006/docPropsVTypes\">\n  <Application>json_to_xlsx</Application>\n</Properties>\n"

/-- The core-properties part (`_core_props_xml`), parameterized by the
formatted current timestamp the source interpolates. -/
def corePropsXml (timestamp : String) : String :=
  "<?xml version=\"1.0\" encoding=\"UTF-8\" standalone=\"yes\"?>\n<cp:coreProperties xmlns:cp=\"http://schemas.openxmlformats.org/package/2006/metadata/core-properties\" xmlns:dc=\"http://purl.org/dc/elements/1.1/\" xmlns:dcterms=\"http://purl.org/dc/terms/\" xmlns:dcmitype=\"http://purl.org/dc/dcmitype/\" xmlns:xsi=\"http://www.w3.org/2001/XMLSchema-instance\">\n  <dc:creator>json_to_xlsx</dc:creator>\n  <cp:lastModifiedBy>json_to_xlsx</cp:lastModifiedBy>\n  <dcterms:created xsi:type=\"dcterms:W3CDTF\">" ++ timestamp ++ "</dcterms:created>\n  <dcterms:modified xsi:type=\"dcterms:W3CDTF\">" ++ timestamp ++ "</dcterms:modified>\n</cp:coreProperties>\n"

/-- State of one file being produced by the zip writer: the archive members
written so far, and whether the archive has been finalized (the context
manager closed). -/
structure ZipFileState where
  parts : List (String × String)
  closed : Bool
deriving DecidableEq

/-- A file system as a path-keyed association list of zip file states. -/
abbrev FS := List (String × ZipFileState)

/-- Look up the file at a path. -/
def fsGet (fs : FS) (p : String) : Option ZipFileState :=
  match fs.find? (fun e => e.1 == p) with
  | some e => some e.2
  | none => none

/-- Create or replace the file at a path. -/
def fsSet : FS → String → ZipFileState → FS
  | [], p, st => [(p, st)]
  | e :: rest, p, st => if e.1 == p then (p, st) :: rest else e :: fsSet rest p st

/-- One observable file-system effect of `_write_xlsx`: opening the archive
for writing at the output path (which creates or truncates that file),
writing one member, or closing the archive. -/
inductive WriteStep where
  | create
  | addPart (name content : String)
  | close

/-- Apply one write step to the file at the output path. -/
def execStep (p : String) (fs : FS) : WriteStep → FS
  | .create => fsSet fs p ⟨[], false⟩
  | .addPart name content =>
    match fsGet fs p with
    | some st => fsSet fs p ⟨st.parts ++ [(name, content)], st.closed⟩
    | none => fs
  | .close =>
    match fsGet fs p with
    | some st => fsSet fs p ⟨st.parts, true⟩
    | none => fs

/-- Run a sequence of write steps. -/
def execSteps (steps : List WriteStep) (p : String) (fs : FS) : FS :=
  steps.foldl (execStep p) fs

/-- The effect trace of `_write_xlsx`: the archive is opened directly at the
output path and the eight members are written in source order, then the
context manager closes the archive. -/
def writeXlsxSteps (rows : List (List Json)) (ts : String) : List WriteStep :=
  [.create,
   .addPart "[Content_Types].xml" contentTypesXml,
   .addPart "_rels/.rels" rootRelsXml,
   .addPart "docProps/core.xml" (corePropsXml ts),
   .addPart "docProps/app.xml" appPropsXml,
   .addPart "xl/workbook.xml" workbookXml,
   .addPart "xl/_rels/workbook.xml.rels" workbookRelsXml,
   .addPart "xl/styles.xml" stylesXml,
   .addPart "xl/worksheets/sheet1.xml" (sheetXml rows),
   .close]

/-- The finished archive `_write_xlsx` leaves at the output path when every
step completes. -/
def xlsxArchive (rows : List (List Json)) (ts : String) : ZipFileState :=
  ⟨[("[Content_Types].xml", contentTypesXml),
    ("_rels/.rels", rootRelsXml),
    ("docProps/core.xml", corePropsXml ts),
    ("docProps/app.xml", appPropsXml),
    ("xl/workbook.xml", workbookXml),
    ("xl/_rels/workbook.xml.rels", workbookRelsXml),
    ("xl/styles.xml", stylesXml),
    ("xl/worksheets/sheet1.xml", sheetXml rows)], true⟩

/-- Error taxonomy of the conversion, named as the specification names the
conditions the source signals by raising: `KeyError` is `missingField`,
`ValueError` on the inner parse is `malformedDocument`, `TypeError` on the
series shape is `typeMismatch`, the empty-series `SystemExit` is
`emptySeries`, and `uncaughtError` stands for exceptions the source does not
guard at all (a series entry that is not a mapping). -/
inductive ConvError where
  | malformedDocument
  | missingField
  | typeMismatch
  | emptySeries
  | uncaughtError
deriving DecidableEq

/-- Key lookup on a JSON object (`payload[key]`), absent on non-objects. -/
def jsonGet (j : Json) (k : String) : Option Json :=
  match j with
  | .obj fields =>
    match fields.find? (fun kv => kv.1 == k) with
    | some kv => some kv.2
    | none => none
  | _ => none

/-- Two-level key lookup (`payload[k1][k2]`). -/
def jsonGet2 (j : Json) (k1 k2 : String) : Option Json :=
  match jsonGet j k1 with
  | some inner => jsonGet inner k2
  | none => none

/-- `_load_data_string_series` of the source, taking the already-parsed outer
document and the `json.loads` used on the embedded string as a parameter
(`none` standing for a `JSONDecodeError`).  The source checks only that
`data.series` is a list; its elements are returned unexamined. -/
def loadDataStringSeries (parse : String → Option Json) (payload : Json) :
    Except ConvError (List Json) :=
  match jsonGet2 payload "data" "data_string" with
  | none => .error .missingField
  | some ds =>
    match ds with
    | .str s =>
      match parse s with
      | none => .error .malformedDocument
      | some inner =>
        match jsonGet2 inner "data" "series" with
        | none => .error .missingField
        | some (.arr elems) => .ok elems
        | some _ => .error .typeMismatch
    | _ => .error .typeMismatch

/-- `entry.get(field, "")` of `main`. -/
def getField (e : Record) (f : String) : Json :=
  match e.find? (fun kv => kv.1 == f) with
  | some kv => kv.2
  | none => .str ""

/-- The full grid `main` hands to `_write_xlsx`: the field-name header row,
the label header row, then one row per record. -/
def mainRows (series : List Record) : List (List Json) :=
  let fields := mainFields series
  let labels := fields.map labelOf
  let dataRows := series.map (fun e => fields.map (getField e))
  (fields.map Json.str) :: (labels.map Json.str) :: dataRows

/-- View the series elements as records; a non-object element makes the
source fail later with an unguarded exception. -/
def asRecords (elems : List Json) : Option (List Record) :=
  elems.mapM (fun j => match j with | .obj fs => some fs | _ => none)

/-- The pure part of `main`: extraction, the empty-series guard, then the
grid computation. -/
def mainConvert (parse : String → Option Json) (payload : Json) :
    Except ConvError (List (List Json)) :=
  match loadDataStringSeries parse payload with
  | .error e => .error e
  | .ok series =>
    if series.isEmpty then .error .emptySeries
    else
      match asRecords series with
      | some records => .ok (mainRows records)
      | none => .error .uncaughtError

/-- `main` including its only write effect: the archive write happens only
after every check has passed, so a failing run leaves the file system as it
was. -/
def mainWithWrite (parse : String → Option Json) (payload : Json)
    (ts outPath : String) (fs : FS) : Except ConvError Unit × FS :=
  match mainConvert parse payload with
  | .error e => (.error e, fs)
  | .ok rows => (.ok (), execSteps (writeXlsxSteps rows ts) outPath fs)

/-- Decoder for the standard bijective base-26 column scheme the
specification names: the numeric value of a letter-only column code.
This is a specification-side definition used to state that `columnName`
matches the standard scheme. -/
def colVal (s : String) : Nat :=
  s.data.foldl (fun acc c => acc * 26 + (c.toNat - 64)) 0

/-- Decoder for the escape sequences the specification names
(`&amp;` `&lt;` `&gt;` `&#10;`).  This is a specification-side definition
used to state that the cell escaping is faithful and lossless. -/
def xmlUnescape : List Char → List Char
  | [] => []
  | c :: rest =>
    if c = '&' then
      match rest with
      | 'a' :: 'm' :: 'p' :: ';' :: rest2 => '&' :: xmlUnescape rest2
      | 'l' :: 't' :: ';' :: rest2 => '<' :: xmlUnescape rest2
      | 'g' :: 't' :: ';' :: rest2 => '>' :: xmlUnescape rest2
      | '#' :: '1' :: '0' :: ';' :: rest2 => '\n' :: xmlUnescape rest2
      | other => c :: xmlUnescape other
    else c :: xmlUnescape rest
termination_by cs => cs.length
decreasing_by all_goals simp_arith

/-- The five field names the positional rules of `_ordered_fields` and
`main` treat specially. -/
def specialFields : List String :=
  ["timeMinute", "groupPlay", "watchUcnt", "pcuTotal", "keyEvent"]

/-- A field occurs in the series when some record carries it. -/
def fieldOccurs (f : String) (series : List Record) : Prop :=
  ∃ e ∈ series, f ∈ recordKeys e

instance (f : String) (series : List Record) : Decidable (fieldOccurs f series) :=
  inferInstanceAs (Decidable (∃ e ∈ series, f ∈ recordKeys e))

/-! ### Lemmas about field discovery and the positional rules -/

theorem discover_cons (acc : List String) (k : String) (ks : List String) :
    discover acc (k :: ks) = discover (if k ∈ acc then acc else acc ++ [k]) ks := rfl

theorem mem_discover {ks : List String} :
    ∀ {acc x : _}, x ∈ discover acc ks ↔ x ∈ acc ∨ x ∈ ks := by
  induction ks with
  | nil => intro acc x; simp [discover]
  | cons k ks ih =>
    intro acc x
    rw [discover_cons]
    by_cases hk : k ∈ acc
    · rw [if_pos hk, ih]
      simp only [List.mem_cons]
      constructor
      · exact fun h => h.imp id Or.inr
      · rintro (h | rfl | h)
        · exact Or.inl h
        · exact Or.inl hk
        · exact Or.inr h
    · rw [if_neg hk, ih]
      simp only [List.mem_append, List.mem_singleton, List.mem_cons]
      tauto

theorem nodup_discover {ks : List String} :
    ∀ {acc : List String}, acc.Nodup → (discover acc ks).Nodup := by
  induction ks with
  | nil => intro acc h; exact h
  | cons k ks ih =>
    intro acc h
    rw [discover_cons]
    by_cases hk : k ∈ acc
    · rw [if_pos hk]; exact ih h
    · rw [if_neg hk]
      refine ih ?_
      rw [List.nodup_append]
      refine ⟨h, List.nodup_singleton k, ?_⟩
      intro a ha hak
      rw [List.mem_singleton] at hak
      exact hk (hak ▸ ha)

theorem mem_discoveredFields_aux {series : List Record} :
    ∀ {acc : List String} {x : String},
      x ∈ series.foldl (fun a e => discover a (recordKeys e)) acc ↔
        x ∈ acc ∨ ∃ e ∈ series, x ∈ recordKeys e := by
  induction series with
  | nil => intro acc x; simp
  | cons e es ih =>
    intro acc x
    rw [List.foldl_cons, ih, mem_discover]
    simp only [List.mem_cons]
    constructor
    · rintro ((h | h) | ⟨e', he', h⟩)
      · exact Or.inl h
      · exact Or.inr ⟨e, Or.inl rfl, h⟩
      · exact Or.inr ⟨e', Or.inr he', h⟩
    · rintro (h | ⟨e', (rfl | he'), h⟩)
      · exact Or.inl (Or.inl h)
      · exact Or.inl (Or.inr h)
      · exact Or.inr ⟨e', he', h⟩

theorem mem_discoveredFields {series : List Record} {x : String} :
    x ∈ discoveredFields series ↔ ∃ e ∈ series, x ∈ recordKeys e := by
  rw [discoveredFields, mem_discoveredFields_aux]
  simp

theorem nodup_discoveredFields (series : List Record) :
    (discoveredFields series).Nodup := by
  rw [discoveredFields]
  have h : ∀ (l : List Record) (acc : List String), acc.Nodup →
      (l.foldl (fun a e => discover a (recordKeys e)) acc).Nodup := by
    intro l
    induction l with
    | nil => intro acc h; exact h
    | cons e es ih => intro acc h; rw [List.foldl_cons]; exact ih _ (nodup_discover h)
  exact h series [] List.nodup_nil

theorem popField_fst (l : List String) (f : String) : (popField l f).1 = l.erase f := by
  by_cases h : f ∈ l <;> simp [popField, h, List.erase_of_not_mem]

theorem popField_snd (l : List String) (f : String) :
    (popField l f).2 = if f ∈ l then some f else none := by
  by_cases h : f ∈ l <;> simp [popField, h]

theorem orderedFields_eq (series : List Record) :
    orderedFields series =
      (if "timeMinute" ∈ discoveredFields series then ["timeMinute"] else []) ++
      (((((discoveredFields series).erase "timeMinute").erase "groupPlay").erase
        "watchUcnt").erase "pcuTotal" ++
      ((if "watchUcnt" ∈ discoveredFields series then ["watchUcnt"] else []) ++
      (if "pcuTotal" ∈ discoveredFields series then ["pcuTotal"] else []))) := by
  have hw : ("watchUcnt" ∈ ((discoveredFields series).erase "timeMinute").erase "groupPlay")
      ↔ "watchUcnt" ∈ discoveredFields series := by
    rw [List.mem_erase_of_ne (by decide), List.mem_erase_of_ne (by decide)]
  have hp : ("pcuTotal" ∈ (((discoveredFields series).erase "timeMinute").erase
      "groupPlay").erase "watchUcnt") ↔ "pcuTotal" ∈ discoveredFields series := by
    rw [List.mem_erase_of_ne (by decide), List.mem_erase_of_ne (by decide),
      List.mem_erase_of_ne (by decide)]
  by_cases h1 : "timeMinute" ∈ discoveredFields series <;>
    by_cases h2 : "watchUcnt" ∈ discoveredFields series <;>
      by_cases h3 : "pcuTotal" ∈ discoveredFields series <;>
        simp [orderedFields, popField_fst, popField_snd, hw, hp, h1, h2, h3]

theorem mainFields_eq_erase (series : List Record) :
    mainFields series = (orderedFields series).erase "keyEvent" ++ ["keyEvent"] := by
  by_cases h : "keyEvent" ∈ orderedFields series <;>
    simp [mainFields, h, List.erase_of_not_mem]

theorem mainFields_eq (series : List Record) :
    mainFields series =
      (if "timeMinute" ∈ discoveredFields series then ["timeMinute"] else []) ++
      ((((((discoveredFields series).erase "timeMinute").erase "groupPlay").erase
        "watchUcnt").erase "pcuTotal").erase "keyEvent" ++
      ((if "watchUcnt" ∈ discoveredFields series then ["watchUcnt"] else []) ++
      ((if "pcuTotal" ∈ discoveredFields series then ["pcuTotal"] else []) ++
      ["keyEvent"]))) := by
  have hA : "keyEvent" ∉
      (if "timeMinute" ∈ discoveredFields series then ["timeMinute"] else []) := by
    split <;> decide
  have hB : "keyEvent" ∉
      ((if "watchUcnt" ∈ discoveredFields series then ["watchUcnt"] else []) ++
       (if "pcuTotal" ∈ discoveredFields series then ["pcuTotal"] else [])) := by
    rw [List.mem_append]
    rintro (h | h) <;> revert h <;> split <;> decide
  rw [mainFields_eq_erase, orderedFields_eq, List.erase_append_right _ hA]
  by_cases hE : "keyEvent" ∈ (((((discoveredFields series).erase "timeMinute").erase
      "groupPlay").erase "watchUcnt").erase "pcuTotal")
  · rw [List.erase_append_left _ hE]
    simp [List.append_assoc]
  · rw [List.erase_append_right _ hE, List.erase_of_not_mem hB,
      List.erase_of_not_mem hE]
    simp [List.append_assoc]

theorem mem_fiveErase {series : List Record} {x : String} :
    x ∈ (((((discoveredFields series).erase "timeMinute").erase "groupPlay").erase
      "watchUcnt").erase "pcuTotal").erase "keyEvent" ↔
    (x ∉ specialFields ∧ x ∈ discoveredFields series) := by
  have hD := nodup_discoveredFields series
  have h1 := hD.erase "timeMinute"
  have h2 := h1.erase "groupPlay"
  have h3 := h2.erase "watchUcnt"
  have h4 := h3.erase "pcuTotal"
  rw [h4.mem_erase_iff, h3.mem_erase_iff, h2.mem_erase_iff, h1.mem_erase_iff,
    hD.mem_erase_iff]
  simp only [specialFields, List.mem_cons, List.not_mem_nil, or_false, not_or]
  tauto

theorem mainFields_nodup (series : List Record) : (mainFields series).Nodup := by
  rw [mainFields_eq]
  have hD := nodup_discoveredFields series
  have hE : ((((((discoveredFields series).erase "timeMinute").erase "groupPlay").erase
      "watchUcnt").erase "pcuTotal").erase "keyEvent").Nodup :=
    ((((hD.erase "timeMinute").erase "groupPlay").erase "watchUcnt").erase
      "pcuTotal").erase "keyEvent"
  by_cases h1 : "timeMinute" ∈ discoveredFields series <;>
    by_cases h2 : "watchUcnt" ∈ discoveredFields series <;>
      by_cases h3 : "pcuTotal" ∈ discoveredFields series <;>
        simp [h1, h2, h3, List.nodup_append, List.disjoint_left, hE, mem_fiveErase,
          specialFields, hD.mem_erase_iff, (hD.erase "timeMinute").mem_erase_iff,
          ((hD.erase "timeMinute").erase "groupPlay").mem_erase_iff,
          (((hD.erase "timeMinute").erase "groupPlay").erase "watchUcnt").mem_erase_iff,
          ((((hD.erase "timeMinute").erase "groupPlay").erase "watchUcnt").erase
            "pcuTotal").mem_erase_iff] <;> tauto

theorem keyEvent_mem_mainFields (series : List Record) :
    "keyEvent" ∈ mainFields series := by
  rw [mainFields_eq_erase]; simp

theorem groupPlay_not_mem_mainFields (series : List Record) :
    "groupPlay" ∉ mainFields series := by
  rw [mainFields_eq]
  simp only [List.mem_append, List.mem_singleton, mem_fiveErase, specialFields,
    List.mem_cons, List.not_mem_nil, or_false, not_or]
  refine ⟨by split <;> decide, fun h => h.1.2.1 trivial, by split <;> decide,
    by split <;> decide, by decide⟩

theorem mem_mainFields_of {series : List Record} {f : String}
    (hne : f ≠ "groupPlay") (hf : f ∈ discoveredFields series) :
    f ∈ mainFields series := by
  rw [mainFields_eq]
  simp only [List.mem_append, List.mem_singleton]
  by_cases hs : f ∈ specialFields
  · simp only [specialFields, List.mem_cons, List.not_mem_nil, or_false] at hs
    rcases hs with rfl | rfl | rfl | rfl | rfl
    · left; simp [hf]
    · exact absurd rfl hne
    · right; right; left; simp [hf]
    · right; right; right; left; simp [hf]
    · right; right; right; right; rfl
  · right; left; exact mem_fiveErase.mpr ⟨hs, hf⟩

theorem fiveErase_eq_filter (series : List Record) :
    (((((discoveredFields series).erase "timeMinute").erase "groupPlay").erase
      "watchUcnt").erase "pcuTotal").erase "keyEvent" =
    (discoveredFields series).filter (fun f => decide (f ∉ specialFields)) := by
  have hD := nodup_discoveredFields series
  rw [hD.erase_eq_filter "timeMinute",
    (hD.filter _).erase_eq_filter "groupPlay",
    ((hD.filter _).filter _).erase_eq_filter "watchUcnt",
    (((hD.filter _).filter _).filter _).erase_eq_filter "pcuTotal",
    ((((hD.filter _).filter _).filter _).filter _).erase_eq_filter "keyEvent"]
  simp only [List.filter_filter]
  apply List.filter_congr
  intro x _
  by_cases h : x ∈ specialFields
  · simp only [specialFields, List.mem_cons, List.not_mem_nil, or_false] at h
    rcases h with rfl | rfl | rfl | rfl | rfl <;> decide
  · simp only [specialFields, List.mem_cons, List.not_mem_nil, or_false, not_or] at h
    obtain ⟨h1, h2, h3, h4, h5⟩ := h
    simp [specialFields, bne_iff_ne, h1, h2, h3, h4, h5]

/-! ### Lemmas about the worksheet cell emission -/

theorem rowCellsAux_append (r : Nat) (xs : List Json) :
    ∀ (c : Nat) (ys : List Json),
      rowCellsAux r c (xs ++ ys) = rowCellsAux r c xs ++ rowCellsAux r (c + xs.length) ys := by
  induction xs with
  | nil => intro c ys; simp [rowCellsAux]
  | cons v vs ih =>
    intro c ys
    show rowCellsAux r c (v :: (vs ++ ys)) = _
    rw [rowCellsAux, rowCellsAux]
    have harith : c + 1 + vs.length = c + (vs.length + 1) := by omega
    by_cases h : isBlankCell v
    · rw [if_pos h, if_pos h, ih, harith]
      rfl
    · rw [if_neg h, if_neg h, ih, harith]
      rfl

theorem rowCellsAux_singleton_blank (r c : Nat) {v : Json} (h : isBlankCell v = true) :
    rowCellsAux r c [v] = [] := by
  simp [rowCellsAux, h]

theorem rowCellsAux_singleton_emit (r c : Nat) {v : Json} (h : isBlankCell v = false) :
    rowCellsAux r c [v] = [cellXml r c v] := by
  simp [rowCellsAux, h]

theorem rowCellsAux_concat_blank (r c : Nat) (xs : List Json) {v : Json}
    (h : isBlankCell v = true) :
    rowCellsAux r c (xs ++ [v]) = rowCellsAux r c xs := by
  rw [rowCellsAux_append, rowCellsAux_singleton_blank _ _ h, List.append_nil]

/-! ### Lemmas about the column-name loop -/

theorem columnNameAux_zero (fuel : Nat) : columnNameAux fuel 0 = "" := by
  cases fuel <;> rfl

theorem columnNameAux_congr :
    ∀ (f1 f2 n : Nat), n ≤ f1 → n ≤ f2 → columnNameAux f1 n = columnNameAux f2 n := by
  intro f1
  induction f1 with
  | zero =>
    intro f2 n h1 _
    have hn : n = 0 := Nat.le_zero.mp h1
    subst hn
    rw [columnNameAux_zero, columnNameAux_zero]
  | succ g ih =>
    intro f2 n h1 h2
    cases n with
    | zero => rw [columnNameAux_zero, columnNameAux_zero]
    | succ m =>
      cases f2 with
      | zero => omega
      | succ g2 =>
        show columnNameAux g (m / 26) ++ _ = columnNameAux g2 (m / 26) ++ _
        have hg : m / 26 ≤ g := le_trans (Nat.div_le_self m 26) (by omega)
        have hg2 : m / 26 ≤ g2 := le_trans (Nat.div_le_self m 26) (by omega)
        rw [ih g2 (m / 26) hg hg2]

theorem columnName_succ (n : Nat) :
    columnName (n + 1) = columnName (n / 26) ++ String.mk [Char.ofNat (65 + n % 26)] := by
  show columnNameAux n (n / 26) ++ _ = columnNameAux (n / 26) (n / 26) ++ _
  rw [columnNameAux_congr n (n / 26) (n / 26) (Nat.div_le_self n 26) (Nat.le_refl _)]

theorem colVal_append_char (s : String) (c : Char) :
    colVal (s ++ String.mk [c]) = colVal s * 26 + (c.toNat - 64) := by
  show colVal ⟨s.data ++ [c]⟩ = _
  simp [colVal, List.foldl_append]

theorem charOfNat_toNat_letter : ∀ r : Nat, r < 26 → (Char.ofNat (65 + r)).toNat = 65 + r := by
  decide

theorem colVal_columnName : ∀ n : Nat, colVal (columnName (n + 1)) = n + 1 := by
  intro n
  induction n using Nat.strong_induction_on with
  | _ n ih =>
    rw [columnName_succ, colVal_append_char,
      charOfNat_toNat_letter (n % 26) (Nat.mod_lt _ (by decide))]
    by_cases h : n < 26
    · rw [Nat.div_eq_of_lt h]
      have : colVal (columnName 0) = 0 := rfl
      rw [this]
      have hm : n % 26 = n := Nat.mod_eq_of_lt h
      omega
    · obtain ⟨m, hm⟩ : ∃ m, n / 26 = m + 1 := by
        refine ⟨n / 26 - 1, ?_⟩
        have : 26 / 26 ≤ n / 26 := Nat.div_le_div_right (by omega)
        omega
      have hlt : m < n := by
        have := Nat.div_le_self n 26
        omega
      rw [hm, ih m hlt]
      have := Nat.div_add_mod n 26
      omega

theorem columnName_letters :
    ∀ n : Nat, ((columnName (n + 1)).data.all (fun c => 'A' ≤ c && c ≤ 'Z')) = true := by
  have hchar : ∀ r : Nat, r < 26 →
      (('A' ≤ Char.ofNat (65 + r) && Char.ofNat (65 + r) ≤ 'Z')) = true := by decide
  intro n
  induction n using Nat.strong_induction_on with
  | _ n ih =>
    rw [columnName_succ, String.data_append, List.all_append]
    have h2 : (String.mk [Char.ofNat (65 + n % 26)]).data.all
        (fun c => 'A' ≤ c && c ≤ 'Z') = true := by
      show (List.all [_] _) = true
      simp only [List.all_cons, List.all_nil, Bool.and_true]
      exact hchar (n % 26) (Nat.mod_lt _ (by decide))
    by_cases h : n < 26
    · rw [Nat.div_eq_of_lt h]
      have h0 : (columnName 0).data.all (fun c => 'A' ≤ c && c ≤ 'Z') = true := rfl
      rw [h0, h2]
      rfl
    · obtain ⟨m, hm⟩ : ∃ m, n / 26 = m + 1 := by
        refine ⟨n / 26 - 1, ?_⟩
        have : 26 / 26 ≤ n / 26 := Nat.div_le_div_right (by omega)
        omega
      have hlt : m < n := by
        have := Nat.div_le_self n 26
        omega
      rw [hm, ih m hlt, h2]
      rfl

/-! ### Lemmas about the cell-value escaping -/

theorem flatten_map_flatten {α β : Type} (f : α → List β) (L : List (List α)) :
    (L.flatten.map f).flatten = (L.map (fun xs => (xs.map f).flatten)).flatten := by
  induction L with
  | nil => rfl
  | cons xs L ih =>
    simp only [List.flatten_cons, List.map_cons, List.map_append, List.flatten_append, ih]

theorem escapeCellValue_data (v : Json) :
    (escapeCellValue v).data =
      ((replR (replRN (pyStr v).data)).map
        (fun c => ((escChar c).map nlEsc).flatten)).flatten := by
  show ((((replR (replRN (pyStr v).data)).map escChar).flatten.map nlEsc)).flatten = _
  rw [flatten_map_flatten, List.map_map]
  rfl

theorem xmlUnescape_cons_ne {c : Char} (h : c ≠ '&') (t : List Char) :
    xmlUnescape (c :: t) = c :: xmlUnescape t := by
  conv_lhs => rw [xmlUnescape.eq_def]
  split
  next heq => exact absurd heq (by simp)
  next c2 rest2 heq =>
    obtain ⟨rfl, rfl⟩ : c = c2 ∧ t = rest2 := by
      injection heq with h1 h2; exact ⟨h1, h2⟩
    rw [if_neg h]

theorem xmlUnescape_amp (t : List Char) :
    xmlUnescape ('&' :: 'a' :: 'm' :: 'p' :: ';' :: t) = '&' :: xmlUnescape t := by
  conv_lhs => rw [xmlUnescape.eq_def]
  rfl

theorem xmlUnescape_lt (t : List Char) :
    xmlUnescape ('&' :: 'l' :: 't' :: ';' :: t) = '<' :: xmlUnescape t := by
  conv_lhs => rw [xmlUnescape.eq_def]
  rfl

theorem xmlUnescape_gt (t : List Char) :
    xmlUnescape ('&' :: 'g' :: 't' :: ';' :: t) = '>' :: xmlUnescape t := by
  conv_lhs => rw [xmlUnescape.eq_def]
  rfl

theorem xmlUnescape_nl (t : List Char) :
    xmlUnescape ('&' :: '#' :: '1' :: '0' :: ';' :: t) = '\n' :: xmlUnescape t := by
  conv_lhs => rw [xmlUnescape.eq_def]
  rfl

theorem xmlUnescape_nil : xmlUnescape [] = [] := by
  rw [xmlUnescape.eq_def]

theorem unescape_combo : ∀ cs : List Char,
    xmlUnescape ((cs.map (fun c => ((escChar c).map nlEsc).flatten)).flatten) = cs := by
  intro cs
  induction cs with
  | nil => simp only [List.map_nil, List.flatten_nil, xmlUnescape_nil]
  | cons c rest ih =>
    rw [List.map_cons, List.flatten_cons]
    by_cases h1 : c = '&'
    · subst h1
      rw [show ((escChar '&').map nlEsc).flatten = ['&', 'a', 'm', 'p', ';'] from rfl]
      simp only [List.cons_append, List.nil_append]
      rw [xmlUnescape_amp, ih]
    · by_cases h2 : c = '<'
      · subst h2
        rw [show ((escChar '<').map nlEsc).flatten = ['&', 'l', 't', ';'] from rfl]
        simp only [List.cons_append, List.nil_append]
        rw [xmlUnescape_lt, ih]
      · by_cases h3 : c = '>'
        · subst h3
          rw [show ((escChar '>').map nlEsc).flatten = ['&', 'g', 't', ';'] from rfl]
          simp only [List.cons_append, List.nil_append]
          rw [xmlUnescape_gt, ih]
        · by_cases h4 : c = '\n'
          · subst h4
            rw [show ((escChar '\n').map nlEsc).flatten = ['&', '#', '1', '0', ';'] from rfl]
            simp only [List.cons_append, List.nil_append]
            rw [xmlUnescape_nl, ih]
          · rw [show ((escChar c).map nlEsc).flatten = [c] by
              simp [escChar, nlEsc, h1, h2, h3, h4]]
            simp only [List.cons_append, List.nil_append]
            rw [xmlUnescape_cons_ne h1, ih]

theorem combo_mem {c x : Char} (hx : x ∈ ((escChar c).map nlEsc).flatten) :
    x ≠ '<' ∧ x ≠ '>' ∧ x ≠ '\n' ∧ (x = '\r' → c = '\r') := by
  by_cases h1 : c = '&'
  · subst h1
    rw [show ((escChar '&').map nlEsc).flatten = ['&', 'a', 'm', 'p', ';'] from rfl] at hx
    simp only [List.mem_cons, List.not_mem_nil, or_false] at hx
    rcases hx with rfl | rfl | rfl | rfl | rfl <;> exact ⟨by decide, by decide, by decide, by decide⟩
  · by_cases h2 : c = '<'
    · subst h2
      rw [show ((escChar '<').map nlEsc).flatten = ['&', 'l', 't', ';'] from rfl] at hx
      simp only [List.mem_cons, List.not_mem_nil, or_false] at hx
      rcases hx with rfl | rfl | rfl | rfl <;> exact ⟨by decide, by decide, by decide, by decide⟩
    · by_cases h3 : c = '>'
      · subst h3
        rw [show ((escChar '>').map nlEsc).flatten = ['&', 'g', 't', ';'] from rfl] at hx
        simp only [List.mem_cons, List.not_mem_nil, or_false] at hx
        rcases hx with rfl | rfl | rfl | rfl <;> exact ⟨by decide, by decide, by decide, by decide⟩
      · by_cases h4 : c = '\n'
        · subst h4
          rw [show ((escChar '\n').map nlEsc).flatten = ['&', '#', '1', '0', ';'] from rfl] at hx
          simp only [List.mem_cons, List.not_mem_nil, or_false] at hx
          rcases hx with rfl | rfl | rfl | rfl | rfl <;>
            exact ⟨by decide, by decide, by decide, by decide⟩
        · rw [show ((escChar c).map nlEsc).flatten = [c] by
            simp [escChar, nlEsc, h1, h2, h3, h4]] at hx
          simp only [List.mem_cons, List.not_mem_nil, or_false] at hx
          subst hx
          exact ⟨h2, h3, h4, fun h => h⟩

theorem replR_no_cr : ∀ cs : List Char, '\r' ∉ replR cs := by
  intro cs
  induction cs with
  | nil => simp [replR]
  | cons c rest ih =>
    by_cases hc : c = '\r'
    · subst hc
      simp only [replR, if_pos rfl, List.mem_cons]
      rintro (h | h)
      · exact absurd h (by decide)
      · exact ih h
    · simp only [replR, if_neg hc, List.mem_cons]
      rintro (h | h)
      · exact hc h.symm
      · exact ih h

/-! ### Lemmas about record lookup and the file-system model -/

theorem getField_eq_default {e : Record} {f : String} (h : f ∉ recordKeys e) :
    getField e f = Json.str "" := by
  rw [getField]
  have hn : e.find? (fun kv => kv.1 == f) = none := by
    rw [List.find?_eq_none]
    intro kv hkv hb
    rw [beq_iff_eq] at hb
    exact h (hb ▸ List.mem_map_of_mem Prod.fst hkv)
  rw [hn]

theorem fsGet_fsSet (fs : FS) (p : String) (st : ZipFileState) :
    fsGet (fsSet fs p st) p = some st := by
  induction fs with
  | nil => simp [fsSet, fsGet]
  | cons e rest ih =>
    by_cases h : e.1 = p
    · simp [fsSet, fsGet, h]
    · have hb : ¬(e.1 == p) = true := by simp [h]
      simp only [fsSet, if_neg hb, fsGet]
      rw [List.find?_cons_of_neg (fsSet rest p st) hb]
      simpa [fsGet] using ih

theorem fsSet_fsSet (fs : FS) (p : String) (a b : ZipFileState) :
    fsSet (fsSet fs p a) p b = fsSet fs p b := by
  induction fs with
  | nil => simp [fsSet]
  | cons e rest ih =>
    by_cases h : e.1 = p
    · simp [fsSet, h]
    · simp only [fsSet, beq_iff_eq, if_neg h, ih]

/-! ### Claim theorems -/

/-- C1: for every record sequence in which `timeMinute`, `groupPlay`,
`watchUcnt`, `pcuTotal` and `keyEvent` all occur, the computed field order is
`timeMinute` first, then all remaining fields in first-seen order, then
`watchUcnt` and `pcuTotal` immediately before `keyEvent`, which is last;
`groupPlay` never appears. -/
theorem C1_fieldOrder_fixed_positions (series : List Record)
    (h1 : fieldOccurs "timeMinute" series) (h2 : fieldOccurs "groupPlay" series)
    (h3 : fieldOccurs "watchUcnt" series) (h4 : fieldOccurs "pcuTotal" series)
    (h5 : fieldOccurs "keyEvent" series) :
    mainFields series =
      "timeMinute" ::
        ((discoveredFields series).filter (fun f => decide (f ∉ specialFields)) ++
          ["watchUcnt", "pcuTotal", "keyEvent"]) ∧
    "groupPlay" ∉ mainFields series := by
  have hd1 : "timeMinute" ∈ discoveredFields series := mem_discoveredFields.mpr h1
  have hd3 : "watchUcnt" ∈ discoveredFields series := mem_discoveredFields.mpr h3
  have hd4 : "pcuTotal" ∈ discoveredFields series := mem_discoveredFields.mpr h4
  refine ⟨?_, groupPlay_not_mem_mainFields series⟩
  rw [mainFields_eq, fiveErase_eq_filter, if_pos hd1, if_pos hd3, if_pos hd4]
  simp

/-- Witness for C1 at a concrete series carrying all five special fields and
two ordinary fields. -/
theorem C1_witness :
    mainFields [[("timeMinute", Json.num 1), ("groupPlay", Json.num 1),
      ("alpha", Json.num 1), ("watchUcnt", Json.num 1), ("pcuTotal", Json.num 1),
      ("keyEvent", Json.num 1), ("beta", Json.num 1)]] =
      ["timeMinute", "alpha", "beta", "watchUcnt", "pcuTotal", "keyEvent"] := by
  have h := (C1_fieldOrder_fixed_positions
    [[("timeMinute", Json.num 1), ("groupPlay", Json.num 1), ("alpha", Json.num 1),
      ("watchUcnt", Json.num 1), ("pcuTotal", Json.num 1), ("keyEvent", Json.num 1),
      ("beta", Json.num 1)]]
    (by decide) (by decide) (by decide) (by decide) (by decide)).1
  exact h.trans (by decide)

/-- C3: a blank cell (empty string or None) is omitted from the emitted row
while every other cell keeps its original 1-based column position; omission
does not shift later columns. -/
theorem C3_sparse_emission (r c : Nat) (pre post : List Json) (v : Json) :
    (isBlankCell v = true →
      rowCellsAux r c (pre ++ v :: post) =
        rowCellsAux r c pre ++ rowCellsAux r (c + pre.length + 1) post) ∧
    (isBlankCell v = false →
      rowCellsAux r c (pre ++ v :: post) =
        rowCellsAux r c pre ++ cellXml r (c + pre.length) v ::
          rowCellsAux r (c + pre.length + 1) post) := by
  constructor
  · intro h
    rw [rowCellsAux_append]
    simp [rowCellsAux, h]
  · intro h
    rw [rowCellsAux_append]
    simp [rowCellsAux, h]

/-- Witness for C3: a blank middle cell is dropped and the following cell
keeps column 3. -/
theorem C3_witness :
    rowCellsAux 3 1 ([Json.num 7] ++ Json.str "" :: [Json.str "x"]) =
      rowCellsAux 3 1 [Json.num 7] ++ rowCellsAux 3 3 [Json.str "x"] :=
  (C3_sparse_emission 3 1 [Json.num 7] [Json.str "x"] (Json.str "")).1 (by decide)

/-- C4 counterexample: a double quote passes through the serializer
unchanged, so quotes are not markup-escaped as the claim states. -/
theorem C4_counterexample_quote_unescaped :
    escapeCellValue (Json.str "\"") = "\"" ∧
    escapeCellValue (Json.str "\"") ≠ "&quot;" := by
  exact ⟨rfl, by decide⟩

/-- C4 amended: the serializer converts the value to text, normalizes CR/LF
and lone CR to LF, escapes exactly the ampersand and the angle brackets
(double quotes are left unchanged), then replaces newlines with the
dedicated line-break escape: decoding the four escape sequences recovers the
newline-normalized text, and no raw angle bracket, newline or carriage
return survives in the emitted cell text. -/
theorem C4_escape_pipeline (v : Json) :
    xmlUnescape (escapeCellValue v).data = replR (replRN (pyStr v).data) ∧
    ∀ x ∈ (escapeCellValue v).data, x ≠ '<' ∧ x ≠ '>' ∧ x ≠ '\n' ∧ x ≠ '\r' := by
  constructor
  · rw [escapeCellValue_data, unescape_combo]
  · intro x hx
    rw [escapeCellValue_data, List.mem_flatten] at hx
    obtain ⟨l, hl, hxl⟩ := hx
    rw [List.mem_map] at hl
    obtain ⟨ch, hch, rfl⟩ := hl
    have h := combo_mem hxl
    refine ⟨h.1, h.2.1, h.2.2.1, ?_⟩
    intro hcr
    exact replR_no_cr _ ((h.2.2.2 hcr) ▸ hch)

/-- Witness for C4 amended at the one-character value "a". -/
theorem C4_escape_pipeline_witness :
    'a' ≠ '<' ∧ 'a' ≠ '>' ∧ 'a' ≠ '\n' ∧ 'a' ≠ '\r' :=
  (C4_escape_pipeline (Json.str "a")).2 'a' (by decide)

/-- C6: for every non-empty record sequence the final column order ends with
`keyEvent` - also when no record carries it; in that keyEvent-free case every
data row resolves the column to the empty placeholder and the corresponding
cell is omitted from every emitted data row (the row equals the row without
that trailing column). -/
theorem C6_keyEvent_trailing (series : List Record) (hne : series ≠ []) :
    (mainFields series).getLast? = some "keyEvent" ∧
    ((∀ e ∈ series, "keyEvent" ∉ recordKeys e) →
      ∀ e ∈ series, getField e "keyEvent" = Json.str "" ∧
        ∀ r c : Nat, rowCellsAux r c ((mainFields series).map (getField e)) =
          rowCellsAux r c (((mainFields series).dropLast).map (getField e))) := by
  have hsplit := mainFields_eq_erase series
  constructor
  · rw [hsplit]
    exact List.getLast?_concat _
  · intro hk e he
    have hgf : getField e "keyEvent" = Json.str "" := getField_eq_default (hk e he)
    refine ⟨hgf, ?_⟩
    intro r c
    rw [hsplit, List.dropLast_concat, List.map_append]
    show rowCellsAux r c (_ ++ [getField e "keyEvent"]) = _
    rw [hgf]
    exact rowCellsAux_concat_blank r c _ (by decide)

/-- Witness for C6 at a one-record series without `keyEvent`: the field
order ends with `keyEvent` and the record resolves it to the empty
placeholder. -/
theorem C6_witness :
    (mainFields [[("foo", Json.num 1)]]).getLast? = some "keyEvent" ∧
    getField [("foo", Json.num 1)] "keyEvent" = Json.str "" :=
  ⟨(C6_keyEvent_trailing [[("foo", Json.num 1)]] (List.cons_ne_nil _ _)).1,
   ((C6_keyEvent_trailing [[("foo", Json.num 1)]] (List.cons_ne_nil _ _)).2
     (by decide) [("foo", Json.num 1)] (List.mem_cons_self _ _)).1⟩

/-- C10 counterexample: a record carrying `groupPlay` contributes a field
that appears zero times in the final field order, not exactly once. -/
theorem C10_counterexample_groupPlay_dropped :
    (∃ e ∈ [[("groupPlay", Json.num 1)]], "groupPlay" ∈ recordKeys e) ∧
    List.count "groupPlay" (mainFields [[("groupPlay", Json.num 1)]]) = 0 := by
  exact ⟨by decide, by decide⟩

/-- C10 amended: the final field order never holds duplicates, never holds
`groupPlay`, and every other field occurring in some record appears in it
exactly once. -/
theorem C10_field_order_unique (series : List Record) :
    (mainFields series).Nodup ∧ "groupPlay" ∉ mainFields series ∧
    ∀ f : String, f ≠ "groupPlay" → fieldOccurs f series →
      List.count f (mainFields series) = 1 := by
  refine ⟨mainFields_nodup series, groupPlay_not_mem_mainFields series, ?_⟩
  intro f hne hocc
  exact List.count_eq_one_of_mem (mainFields_nodup series)
    (mem_mainFields_of hne (mem_discoveredFields.mpr hocc))

/-- Witness for C10 amended at a concrete two-field record. -/
theorem C10_witness :
    List.count "foo" (mainFields [[("timeMinute", Json.num 1), ("foo", Json.num 2)]]) = 1 :=
  (C10_field_order_unique [[("timeMinute", Json.num 1), ("foo", Json.num 2)]]).2.2
    "foo" (by decide) (by decide)

set_option maxRecDepth 8192 in
/-- C5: the column-name function realizes the standard bijective base-26
letter scheme: decoding any produced code yields the 1-based index back, the
code consists of capital letters only, and the enumerated sample indices map
to A, Z, AA, ZZ, AAA. -/
theorem C5_columnName_standard :
    (∀ n : Nat, colVal (columnName (n + 1)) = n + 1 ∧
      ((columnName (n + 1)).data.all (fun c => 'A' ≤ c && c ≤ 'Z')) = true) ∧
    columnName 1 = "A" ∧ columnName 26 = "Z" ∧ columnName 27 = "AA" ∧
    columnName 702 = "ZZ" ∧ columnName 703 = "AAA" :=
  ⟨fun n => ⟨colVal_columnName n, columnName_letters n⟩,
    by decide, by decide, by decide, by decide, by decide⟩

/-- C7: when the embedded `data.series` parses to an empty sequence, the run
fails with the empty-series error and the file system is left untouched, so
no output file appears at the intended path. -/
theorem C7_empty_series (parse : String → Option Json) (payload : Json)
    (ts outPath : String) (fs : FS)
    (h : loadDataStringSeries parse payload = Except.ok []) :
    mainWithWrite parse payload ts outPath fs =
      (Except.error ConvError.emptySeries, fs) := by
  simp [mainWithWrite, mainConvert, h]

/-- Witness for C7 at a concrete document whose inner payload carries an
empty series. -/
theorem C7_witness :
    mainWithWrite
      (fun s => if s = "I" then
        some (Json.obj [("data", Json.obj [("series", Json.arr [])])]) else none)
      (Json.obj [("data", Json.obj [("data_string", Json.str "I")])])
      "T" "out.xlsx" [] =
      (Except.error ConvError.emptySeries, []) :=
  C7_empty_series _ _ "T" "out.xlsx" [] (by rfl)

/-- C8 counterexample: stopping after the first two write steps (the archive
is opened directly at the output path and one member is written) leaves an
observable file at the intended output name that differs from the complete
archive, refuting the temporary-location-plus-rename claim. -/
theorem C8_counterexample_partial_write :
    (fsGet (execSteps ((writeXlsxSteps [] "T").take 2) "out.xlsx" []) "out.xlsx").isSome
      = true ∧
    fsGet (execSteps ((writeXlsxSteps [] "T").take 2) "out.xlsx" []) "out.xlsx" ≠
      fsGet (execSteps (writeXlsxSteps [] "T") "out.xlsx" []) "out.xlsx" := by
  have h1 : fsGet (execSteps ((writeXlsxSteps [] "T").take 2) "out.xlsx" []) "out.xlsx" =
      some ⟨[("[Content_Types].xml", contentTypesXml)], false⟩ := by
    simp [execSteps, writeXlsxSteps, execStep, fsGet_fsSet, fsSet_fsSet]
  have h2 : fsGet (execSteps (writeXlsxSteps [] "T") "out.xlsx" []) "out.xlsx" =
      some (xlsxArchive [] "T") := by
    simp [execSteps, writeXlsxSteps, execStep, fsGet_fsSet, fsSet_fsSet, xlsxArchive]
  refine ⟨by rw [h1]; rfl, ?_⟩
  rw [h1, h2]
  intro h
  simp [xlsxArchive] at h

/-- C8 amended: the writer opens the archive directly at the intended output
path; a run in which every step completes leaves exactly the complete
eight-part archive there, while already after two steps an incomplete,
unfinalized file is observable under the intended name — there is no
temporary location plus rename. -/
theorem C8_write_characterization (rows : List (List Json)) (ts outPath : String)
    (fs : FS) :
    execSteps (writeXlsxSteps rows ts) outPath fs =
      fsSet fs outPath (xlsxArchive rows ts) ∧
    fsGet (execSteps ((writeXlsxSteps rows ts).take 2) outPath fs) outPath =
      some ⟨[("[Content_Types].xml", contentTypesXml)], false⟩ := by
  constructor
  · simp [execSteps, writeXlsxSteps, execStep, fsGet_fsSet, fsSet_fsSet, xlsxArchive]
  · simp [execSteps, writeXlsxSteps, execStep, fsGet_fsSet, fsSet_fsSet]

/-- C9 counterexample: a series that is a list holding a non-mapping element
is accepted by extraction (returned as-is), not rejected with TypeMismatch. -/
theorem C9_counterexample_nonmapping_accepted :
    loadDataStringSeries
      (fun s => if s = "I" then
        some (Json.obj [("data", Json.obj [("series", Json.arr [Json.num 42])])])
      else none)
      (Json.obj [("data", Json.obj [("data_string", Json.str "I")])]) =
      Except.ok [Json.num 42] ∧
    loadDataStringSeries
      (fun s => if s = "I" then
        some (Json.obj [("data", Json.obj [("series", Json.arr [Json.num 42])])])
      else none)
      (Json.obj [("data", Json.obj [("data_string", Json.str "I")])]) ≠
      Except.error ConvError.typeMismatch :=
  ⟨rfl, fun h => nomatch h⟩

/-- C9 amended: with `data.series` present, extraction fails with
TypeMismatch exactly when its value is not a sequence; a sequence is
returned with its elements unexamined, mappings or not. -/
theorem C9_typeMismatch_only_for_nonlist (parse : String → Option Json)
    (payload inner : Json) (s : String) (v : Json)
    (hds : jsonGet2 payload "data" "data_string" = some (Json.str s))
    (hparse : parse s = some inner)
    (hv : jsonGet2 inner "data" "series" = some v) :
    loadDataStringSeries parse payload =
      (match v with
       | Json.arr elems => Except.ok elems
       | _ => Except.error ConvError.typeMismatch) := by
  simp only [loadDataStringSeries, hds, hparse, hv]
  cases v <;> rfl

/-- Witness for C9 amended: a series present as a plain string fails with
TypeMismatch. -/
theorem C9_amended_witness :
    loadDataStringSeries
      (fun s => if s = "J" then
        some (Json.obj [("data", Json.obj [("series", Json.str "oops")])]) else none)
      (Json.obj [("data", Json.obj [("data_string", Json.str "J")])]) =
      Except.error ConvError.typeMismatch :=
  C9_typeMismatch_only_for_nonlist
    (fun s => if s = "J" then
      some (Json.obj [("data", Json.obj [("series", Json.str "oops")])]) else none)
    (Json.obj [("data", Json.obj [("data_string", Json.str "J")])])
    (Json.obj [("data", Json.obj [("series", Json.str "oops")])])
    "J" (Json.str "oops") rfl rfl rfl

set_option maxRecDepth 16384 in
/-- C2: end-to-end scenario: for the claim's concrete doubly-encoded input
document (the `json.loads` of the embedded text modelled as mapping exactly
that text to its parse), the conversion yields a grid of exactly three rows
with the documented field names, labels and values, and the worksheet XML
emitted for that grid holds exactly those three row elements. -/
theorem C2_end_to_end :
    mainConvert
      (fun s => if s = "\x7b\"data\":\x7b\"series\":[\x7b\"timeMinute\":\"00:00\",\"pcuTotal\":10,\"watchUcnt\":5,\"keyEvent\":\"start\"\x7d]\x7d\x7d" then
        some (Json.obj [("data", Json.obj [("series", Json.arr
          [Json.obj [("timeMinute", Json.str "00:00"), ("pcuTotal", Json.num 10),
            ("watchUcnt", Json.num 5), ("keyEvent", Json.str "start")]])])])
        else none)
      (Json.obj [("data", Json.obj [("data_string",
        Json.str "\x7b\"data\":\x7b\"series\":[\x7b\"timeMinute\":\"00:00\",\"pcuTotal\":10,\"watchUcnt\":5,\"keyEvent\":\"start\"\x7d]\x7d\x7d")])]) =
      Except.ok
        [[Json.str "timeMinute", Json.str "watchUcnt", Json.str "pcuTotal", Json.str "keyEvent"],
       [Json.str "时刻", Json.str "进入直播间人数", Json.str "在线人数", Json.str "关键事件"],
       [Json.str "00:00", Json.num 5, Json.num 10, Json.str "start"]] ∧
    sheetXml
      [[Json.str "timeMinute", Json.str "watchUcnt", Json.str "pcuTotal", Json.str "keyEvent"],
       [Json.str "时刻", Json.str "进入直播间人数", Json.str "在线人数", Json.str "关键事件"],
       [Json.str "00:00", Json.num 5, Json.num 10, Json.str "start"]] =
      "<?xml version=\"1.0\" encoding=\"UTF-8\" standalone=\"yes\"?>\n<worksheet xmlns=\"http://schemas.openxmlformats.org/spreadsheetml/2006/main\">\n  <sheetData>\n    <row r=\"1\">\n      <c r=\"A1\" t=\"inlineStr\"><is><t xml:space=\"preserve\">timeMinute</t></is></c>\n      <c r=\"B1\" t=\"inlineStr\"><is><t xml:space=\"preserve\">watchUcnt</t></is></c>\n      <c r=\"C1\" t=\"inlineStr\"><is><t xml:space=\"preserve\">pcuTotal</t></is></c>\n      <c r=\"D1\" t=\"inlineStr\"><is><t xml:space=\"preserve\">keyEvent</t></is></c>\n    </row>\n    <row r=\"2\">\n      <c r=\"A2\" t=\"inlineStr\"><is><t xml:space=\"preserve\">时刻</t></is></c>\n      <c r=\"B2\" t=\"inlineStr\"><is><t xml:space=\"preserve\">进入直播间人数</t></is></c>\n      <c r=\"C2\" t=\"inlineStr\"><is><t xml:space=\"preserve\">在线人数</t></is></c>\n      <c r=\"D2\" t=\"inlineStr\"><is><t xml:space=\"preserve\">关键事件</t></is></c>\n    </row>\n    <row r=\"3\">\n      <c r=\"A3\" t=\"inlineStr\"><is><t xml:space=\"preserve\">00:00</t></is></c>\n      <c r=\"B3\" t=\"inlineStr\"><is><t xml:space=\"preserve\">5</t></is></c>\n      <c r=\"C3\" t=\"inlineStr\"><is><t xml:space=\"preserve\">10</t></is></c>\n      <c r=\"D3\" t=\"inlineStr\"><is><t xml:space=\"preserve\">start</t></is></c>\n    </row>\n  </sheetData>\n</worksheet>" := by
  exact ⟨rfl, rfl⟩
